import Mathlib

/-!
Verification of the core game logic of a terminal falling-block game
(`main.c` plus one unnamed revision of the same program).  The functions
below are shallow embeddings of the corresponding C functions; boards are
total functions from integer coordinates to characters, mirroring the
`char board[19][20]` grid (row 0 at the top, playable cells in rows 0..17
and columns 1..10, `' '` meaning empty).
-/

namespace Tetris

/-! ### Sprite table

Each piece is a list of up to 4 valid orientation images; an image is a
4x4 bitmap packed in 16 bits exactly as in the C `sprite` tables. -/

def A : List Nat := [0x00F0, 0x4444, 0x0000, 0x0000, 0x0000]

def B : List Nat := [0x0660, 0x0000, 0x0000, 0x0000, 0x0000]

def C : List Nat := [0x0E40, 0x4C40, 0x4E00, 0x4640, 0x0000]

def D : List Nat := [0x06C0, 0x8C40, 0x0000, 0x0000, 0x0000]

def E : List Nat := [0x0C60, 0x4C80, 0x0000, 0x0000, 0x0000]

def F : List Nat := [0x0E80, 0xC440, 0x2E00, 0x4460, 0x0000]

def G : List Nat := [0x0E20, 0x44C0, 0x8E00, 0x6440, 0x0000]

def scale : List (List Nat) := [A, B, C, D, E, F, G]

/-- `GET_IMG(scale, piece, ori)`: the 16-bit image of a piece in a given
orientation. -/
def getImg (piece ori : Nat) : Nat := (scale.getD piece []).getD ori 0

/-- `PIXEL_LIT(im, x, y)`: bit `(3 - x) + 4 * (3 - y)` of the image, for
loop coordinates `x, y` in `0..3`. -/
def pixelLit (im : Nat) (x y : Nat) : Bool := im.testBit ((3 - x) + 4 * (3 - y))

/-! ### Board -/

/-- A board is a total assignment of characters to integer coordinates
(row, column); the cells of the C array are those with both coordinates in
`0..18`. -/
def Board := Int → Int → Char

/-- The rows of the initial `board` array, as written in the source. -/
def boardRows : List String := [
  "*          ********",
  "*          *score**",
  "*          ********",
  "*          *     0*",
  "*          ********",
  "*          *level**",
  "*          ********",
  "*          *     0*",
  "*          ********",
  "*          *lines**",
  "*          ********",
  "*          *     0*",
  "*          ********",
  "*          ***    *",
  "*          ***    *",
  "*          ***    *",
  "*          ***    *",
  "*          ********",
  "*******************"]

/-- View a list of row strings as a `Board` (cells outside the listed rows
and columns read as empty). -/
def boardOfRows (rows : List String) : Board := fun r c =>
  if 0 ≤ r ∧ 0 ≤ c then ((rows.getD r.toNat "").toList).getD c.toNat ' '
  else ' '

/-- The initial board: empty playfield, border and sidebar. -/
def initBoard : Board := boardOfRows boardRows

/-! ### Movement engine -/

/-- `can_move()` of the latest revision, abstracted over the piece state it
reads: the nested 4x4 loop returns 0 (false) as soon as some lit pixel of
the image lies on a non-space cell whose position satisfies
`next_y + j <= 18 && next_y + j >= 0 && next_x + i <= 11`. -/
def canMove (b : Board) (piece ori : Nat) (x y : Int) : Bool :=
  !((List.range 4).any fun i => (List.range 4).any fun j =>
    pixelLit (getImg piece ori) i j
    && (b (y + (j : Int)) (1 + x + (i : Int)) != ' ')
    && (decide (y + (j : Int) ≤ 18) && decide (0 ≤ y + (j : Int))
        && decide (x + (i : Int) ≤ 11)))

/-- The failure condition of `can_place` as the specification words it: some
lit mask cell maps to an occupied in-bounds cell or to a position out of the
left/right/bottom bounds, with rows above the top (`row < 0`) always
permitted. -/
def specCanPlaceFail (b : Board) (piece ori : Nat) (x y : Int) : Bool :=
  (List.range 4).any fun i => (List.range 4).any fun j =>
    pixelLit (getImg piece ori) i j
    && decide (0 ≤ y + (j : Int))
    && (decide (1 + x + (i : Int) < 1) || decide (1 + x + (i : Int) > 10)
        || decide (y + (j : Int) > 17)
        || ((b (y + (j : Int)) (1 + x + (i : Int)) != ' ')
            && decide (y + (j : Int) ≤ 17) && decide (1 ≤ 1 + x + (i : Int))
            && decide (1 + x + (i : Int) ≤ 10)))

/-- The `current` piece state: committed position/orientation and the
tentative (`next_`) candidate, plus the hit flag. -/
structure Current where
  piece : Nat
  next_piece : Nat
  ori : Nat
  next_ori : Nat
  x : Int
  next_x : Int
  y : Int
  next_y : Int
  hit : Bool

/-- `can_move()` applied to the fields it actually reads: the current
piece's shape, the tentative orientation and the tentative position. -/
def canMoveCur (b : Board) (cur : Current) : Bool :=
  canMove b cur.piece cur.next_ori cur.next_x cur.next_y

/-- `move()`: commit the tentative position and orientation (the drawing
calls are outside the model). -/
def move (cur : Current) : Current :=
  { cur with x := cur.next_x, y := cur.next_y, ori := cur.next_ori }

/-- `cancel_move()`: on a rejected move, roll back the vertical axis and
mark the piece hit if the tentative row differs, otherwise roll back the
column and the orientation. -/
def cancelMove (cur : Current) : Current :=
  if cur.next_y ≠ cur.y then { cur with hit := true, next_y := cur.y }
  else { cur with next_x := cur.x, next_ori := cur.ori }

/-- `try_move()`: commit the move when `can_move` allows it, cancel it
otherwise; returns whether the move was applied. -/
def tryMove (b : Board) (cur : Current) : Bool × Current :=
  if canMoveCur b cur then (true, move cur) else (false, cancelMove cur)

/-- `down()`: increment the tentative row and run `try_move`. -/
def down (b : Board) (cur : Current) : Bool × Current :=
  tryMove b { cur with next_y := cur.next_y + 1 }

/-- A position is inside the playable field: rows `0..17`, columns
`1..10`. -/
def inPlay (r c : Int) : Bool :=
  decide (0 ≤ r) && decide (r ≤ 17) && decide (1 ≤ c) && decide (c ≤ 10)

/-- The committed current piece does not overlap any occupied playfield
cell. -/
def noOverlap (b : Board) (cur : Current) : Bool :=
  (List.range 4).all fun i => (List.range 4).all fun j =>
    !(pixelLit (getImg cur.piece cur.ori) i j)
    || !(inPlay (cur.y + (j : Int)) (1 + cur.x + (i : Int)))
    || (b (cur.y + (j : Int)) (1 + cur.x + (i : Int)) == ' ')

/-! ### Line clear, scoring, level and speed -/

/-- The `period[]` table that defines the game's speed per level. -/
def periodTable : List Nat :=
  [100, 87, 75, 64, 54, 45, 37, 30, 24, 19, 15, 12, 10, 9, 8, 7, 6, 5, 4, 3]

/-- The score coefficients of `remove_lines`, indexed by clear count. -/
def coefList : List Nat := [0, 40, 100, 300, 1200]

/-- The counters of the `game` singleton touched by a line clear. -/
structure Stats where
  mode : Char
  lines : Nat
  lvl : Nat
  score : Nat
  period : Nat

/-- The counter part of `complete_line(line)`: in mode `b` the line counter
counts down and clamps at zero; otherwise it counts up and on each multiple
of ten the level is raised to `lines / 10` if that is larger; the drop
period is re-read from `period[game.lvl]` in all cases. -/
def completeLineStats (s : Stats) : Stats :=
  if s.mode = 'b' then
    { s with lines := s.lines - 1, period := periodTable.getD s.lvl 0 }
  else
    { s with lines := s.lines + 1,
             lvl := if (s.lines + 1) % 10 = 0
                    then max ((s.lines + 1) / 10) s.lvl else s.lvl,
             period := periodTable.getD
               (if (s.lines + 1) % 10 = 0
                then max ((s.lines + 1) / 10) s.lvl else s.lvl) 0 }

/-- The board part of `complete_line(line)`: the descending copy loop moves
every playfield row `0 ≤ k < line` down to row `k + 1`, so after it row `r`
(for `1 ≤ r ≤ line`, columns `1..10`) holds the old row `r - 1`. -/
def completeLineBoard (line : Nat) (b : Board) : Board := fun r c =>
  if 1 ≤ r ∧ r ≤ (line : Int) ∧ 1 ≤ c ∧ c ≤ 10 then b (r - 1) c else b r c

/-- One iteration of the `remove_lines` loop: clear a completed row and
update the counters. -/
def clearStep (p : Board × Stats) (line : Nat) : Board × Stats :=
  (completeLineBoard line p.1, completeLineStats p.2)

/-! ### Wire protocol -/

/-- `MSG_BUILD(code, value)`: pack code and value by bitwise or, truncated
to one byte. -/
def msgBuild (code value : Nat) : Nat := (code ||| value) % 256

/-- `MSG_CODE(msg)`: the top three bits. -/
def msgCode (m : Nat) : Nat := 0xE0 &&& m

/-- `MSG_VALUE(msg)`: the bottom five bits. -/
def msgValue (m : Nat) : Nat := 0x1F &&& m

def MSG_HEIGHT : Nat := 0x00

def MSG_LINES : Nat := 0x20

def MSG_LOST : Nat := 0x40

def MSG_QUIT : Nat := 0x60

def MSG_PAUSE : Nat := 0x80

/-- `remove_lines()`: clear each recorded completed row, add
`coef[count] * (lvl + 1)` to the score, and in network mode send one
`MSG_LINES` message carrying `count - 1` when more than one row was
cleared.  `compLines` is the prefix of `game.comp_lines` before the first
`-1` sentinel.  The returned option is the message sent, if any. -/
def removeLines (compLines : List Nat) (netMode : Bool) (b : Board)
    (s : Stats) : Board × Stats × Option (Nat × Nat) :=
  let p := compLines.foldl clearStep (b, s)
  let n := compLines.length
  ( p.1,
    { p.2 with score := p.2.score + coefList.getD n 0 * (p.2.lvl + 1) },
    if netMode && decide (1 < n) then some (MSG_LINES, n - 1) else none )

/-! ### Penalty lines -/

/-- `add_lines(pending_lines)`: the first loop copies row `j + p` onto row
`j` for `0 ≤ j < 18 - p` (columns `1..10`), the second fills rows
`18 - p ≤ j < 18` with `'1'` in every playable column except the void
column.  As a function of the old board. -/
def addLines (p : Nat) (vc : Int) (b : Board) : Board := fun r c =>
  if 1 ≤ c ∧ c ≤ 10 ∧ 0 ≤ r ∧ r < 18 - (p : Int) then b (r + (p : Int)) c
  else if 1 ≤ c ∧ c ≤ 10 ∧ 18 - (p : Int) ≤ r ∧ r < 18 then
    (if c ≠ vc then '1' else ' ')
  else b r c

/-- The penalty application as the specification words it: existing rows
shift down by `p`, the bottom rows are discarded, and the newly exposed
(top) rows are filled solid except the void column. -/
def specAddLines (p : Nat) (vc : Int) (b : Board) : Board := fun r c =>
  if 1 ≤ c ∧ c ≤ 10 ∧ 0 ≤ r ∧ r < (p : Int) then
    (if c ≠ vc then '1' else ' ')
  else if 1 ≤ c ∧ c ≤ 10 ∧ (p : Int) ≤ r ∧ r < 18 then b (r - (p : Int)) c
  else b r c

/-! ### Network receive step -/

/-- The `end_status` enumeration. -/
inductive EndStatus where
  | going
  | won
  | lost
  | quit
  | peerLeft

/-- The game state visible to `read_msg`: end status, pause flag, main-loop
flag, the pending penalty counter, the peer-height gauge, whether the peer
socket is open, and the board (which `read_msg` never touches). -/
structure NetGame where
  status : EndStatus
  pause : Bool
  loopOn : Bool
  pendingLines : Nat
  gauge : Nat
  connOpen : Bool
  board : Board

/-- `in_pause()`: toggle the pause flag (the sound and drawing calls are
outside the model). -/
def inPauseUpd (st : NetGame) : NetGame := { st with pause := !st.pause }

/-- The `case 1:` branch of `read_msg` — one byte `m` was received; the
switch dispatches on its code.  The boolean is false exactly when the code
is unknown and the function reports the protocol error (returns -1). -/
def readMsgByte (st : NetGame) (m : Nat) : NetGame × Bool :=
  if msgCode m = MSG_HEIGHT then ({ st with gauge := msgValue m }, true)
  else if msgCode m = MSG_LINES then
    ({ st with pendingLines := st.pendingLines + msgValue m }, true)
  else if msgCode m = MSG_LOST then
    ({ st with loopOn := false, status := EndStatus.won }, true)
  else if msgCode m = MSG_QUIT then
    ({ st with loopOn := false, status := EndStatus.peerLeft }, true)
  else if msgCode m = MSG_PAUSE then (inPauseUpd st, true)
  else (st, false)

/-! ### Audio mixing -/

/-- One mixed sample of `update_music`: the int expression
`bg + sfx - 127` converted to `unsigned char`, i.e. reduced modulo 256. -/
def mixSample (bg fx : Nat) : Nat := ((((bg : Int) + (fx : Int)) - 127) % 256).toNat

/-- The same mix kept in range by saturation, as the specification words
it. -/
def satMixSample (bg fx : Nat) : Nat :=
  (min 255 (max 0 (((bg : Int) + (fx : Int)) - 127))).toNat

/-- The mixing loop `for (i = 0; i < ret_sfx; i++)`: the first
`ret_sfx` background samples are mixed, the rest are passed through. -/
def mixChunk : List Nat → List Nat → List Nat
  | bg, [] => bg
  | [], _ => []
  | bgh :: bgt, fxh :: fxt => mixSample bgh fxh :: mixChunk bgt fxt

/-- The sound-effect part of `update_music`: read up to the background
chunk's length from the effect stream at cursor `pos`; a zero-length read
rewinds the stream and marks it inactive, otherwise the read samples are
mixed onto the chunk and the cursor advances.  Returns the output chunk,
the new cursor and whether the effect is still active. -/
def sfxStep (data : List Nat) (pos : Nat) (bgm : List Nat) :
    List Nat × Nat × Bool :=
  let chunk := (data.drop pos).take bgm.length
  if chunk.isEmpty then (bgm, 0, false)
  else (mixChunk bgm chunk, pos + chunk.length, true)

/-! ### Concrete states used to witness the theorems -/

/-- A rejected horizontal move: piece `B` pressed into the left border. -/
def leftHitCur : Current :=
  ⟨1, 0, 0, 0, -1, -2, 0, 0, false⟩

/-- Piece `B` freshly spawned at the top of the board. -/
def spawnCur : Current := ⟨1, 0, 0, 0, 3, 3, 0, 0, false⟩

/-- The initial board with one occupied playfield cell at row 3,
column 5. -/
def overlapBoard : Board := fun r c =>
  if r = 3 ∧ c = 5 then '1' else initBoard r c

/-- A mode-`a` state nine cleared lines into level 0. -/
def statsNine : Stats := ⟨'a', 9, 0, 0, 100⟩

/-- A mode-`a` state nine cleared lines in, at a preset level 2. -/
def statsPreset : Stats := ⟨'a', 9, 2, 0, 100⟩

/-- A fresh mode-`a` state. -/
def statsStart : Stats := ⟨'a', 0, 0, 0, 100⟩

/-- A running two-player game state. -/
def netGame0 : NetGame := ⟨EndStatus.going, false, true, 0, 0, true, initBoard⟩

/-! ### Helper lemmas -/

/-- Characterization of `canMove`: it returns false exactly when some lit
pixel, inside the checked window (row in `0..18`, column offset at most
11), lies on a non-space cell. -/
theorem canMove_eq_false_iff (b : Board) (piece ori : Nat) (x y : Int) :
    canMove b piece ori x y = false ↔
      ∃ i < 4, ∃ j < 4, pixelLit (getImg piece ori) i j = true ∧
        b (y + (j : Int)) (1 + x + (i : Int)) ≠ ' ' ∧
        y + (j : Int) ≤ 18 ∧ 0 ≤ y + (j : Int) ∧ x + (i : Int) ≤ 11 := by
  simp only [canMove, Bool.not_eq_false', List.any_eq_true, List.mem_range,
    Bool.and_eq_true, bne_iff_ne, decide_eq_true_eq]
  constructor
  · rintro ⟨i, hi, j, hj, h⟩
    exact ⟨i, hi, j, hj, by tauto⟩
  · rintro ⟨i, hi, j, hj, h⟩
    exact ⟨i, hi, j, hj, by tauto⟩

theorem noOverlap_eq_true_iff (b : Board) (cur : Current) :
    noOverlap b cur = true ↔
      ∀ i < 4, ∀ j < 4, pixelLit (getImg cur.piece cur.ori) i j = true →
        inPlay (cur.y + (j : Int)) (1 + cur.x + (i : Int)) = true →
        b (cur.y + (j : Int)) (1 + cur.x + (i : Int)) = ' ' := by
  simp only [noOverlap, List.all_eq_true, List.mem_range, Bool.or_eq_true,
    Bool.not_eq_true', beq_iff_eq]
  constructor
  · intro h i hi j hj hl hp
    rcases h i hi j hj with (h' | h') | h'
    · exact absurd hl (by simp [h'])
    · exact absurd hp (by simp [h'])
    · exact h'
  · intro h i hi j hj
    by_cases hl : pixelLit (getImg cur.piece cur.ori) i j = true
    · by_cases hp : inPlay (cur.y + (j : Int)) (1 + cur.x + (i : Int)) = true
      · exact Or.inr (h i hi j hj hl hp)
      · exact Or.inl (Or.inr (by simpa using hp))
    · exact Or.inl (Or.inl (by simpa using hl))

/-- `cancel_move` never touches the committed fields, so the overlap
invariant is unaffected by it. -/
theorem noOverlap_cancelMove (b : Board) (cur : Current) :
    noOverlap b (cancelMove cur) = noOverlap b cur := by
  unfold cancelMove
  split <;> rfl

/-- A successful `can_move` check guarantees that the tentative placement
is clear on every playfield cell it covers. -/
theorem canMove_clear_playfield (b : Board) (piece ori : Nat) (x y : Int)
    (h : canMove b piece ori x y = true) :
    ∀ i < 4, ∀ j < 4, pixelLit (getImg piece ori) i j = true →
      inPlay (y + (j : Int)) (1 + x + (i : Int)) = true →
      b (y + (j : Int)) (1 + x + (i : Int)) = ' ' := by
  intro i hi j hj hl hp
  by_contra hne
  have hfalse : canMove b piece ori x y = false := by
    rw [canMove_eq_false_iff]
    refine ⟨i, hi, j, hj, hl, hne, ?_, ?_, ?_⟩
    · simp only [inPlay, Bool.and_eq_true, decide_eq_true_eq] at hp
      omega
    · simp only [inPlay, Bool.and_eq_true, decide_eq_true_eq] at hp
      omega
    · simp only [inPlay, Bool.and_eq_true, decide_eq_true_eq] at hp
      omega
  rw [h] at hfalse
  exact Bool.noConfusion hfalse

/-- `try_move` preserves the overlap invariant: a rejected move leaves the
committed piece in place and an accepted move was validated by
`can_move`. -/
theorem tryMove_noOverlap (b : Board) (cur : Current)
    (h : noOverlap b cur = true) : noOverlap b (tryMove b cur).2 = true := by
  unfold tryMove
  by_cases hc : canMoveCur b cur = true
  · simp only [hc, if_true]
    rw [noOverlap_eq_true_iff]
    intro i hi j hj hl hp
    exact canMove_clear_playfield b cur.piece cur.next_ori cur.next_x
      cur.next_y hc i hi j hj hl hp
  · simp only [Bool.not_eq_true] at hc
    simp only [hc, Bool.false_eq_true, if_false]
    rw [noOverlap_cancelMove]
    exact h

/-- Explicit form of `complete_line`'s counter update outside mode `b`. -/
theorem completeLineStats_nonb (s : Stats) (h : s.mode ≠ 'b') :
    completeLineStats s =
      { s with lines := s.lines + 1,
               lvl := if (s.lines + 1) % 10 = 0
                      then max ((s.lines + 1) / 10) s.lvl else s.lvl,
               period := periodTable.getD
                 (if (s.lines + 1) % 10 = 0
                  then max ((s.lines + 1) / 10) s.lvl else s.lvl) 0 } := by
  unfold completeLineStats
  rw [if_neg h]

/-- `complete_line` never changes the score. -/
theorem completeLineStats_score (s : Stats) :
    (completeLineStats s).score = s.score := by
  unfold completeLineStats
  split <;> rfl

/-- The clearing loop of `remove_lines` never changes the score. -/
theorem foldl_clearStep_score (ls : List Nat) (b : Board) (s : Stats) :
    (ls.foldl clearStep (b, s)).2.score = s.score := by
  induction ls generalizing b s with
  | nil => rfl
  | cons h t ih =>
    simp only [List.foldl_cons]
    rw [show clearStep (b, s) h = (completeLineBoard h b, completeLineStats s)
      from rfl]
    rw [ih, completeLineStats_score]

/-- `mixChunk` keeps the background chunk's length. -/
theorem mixChunk_length (bg fx : List Nat) :
    (mixChunk bg fx).length = bg.length := by
  induction bg generalizing fx with
  | nil => cases fx <;> rfl
  | cons h t ih =>
    cases fx with
    | nil => rfl
    | cons fh ft => simp [mixChunk, ih]

/-- Per-sample description of `mixChunk`. -/
theorem mixChunk_getD (bg fx : List Nat) (i : Nat) :
    (mixChunk bg fx).getD i 0 =
      if i < bg.length ∧ i < fx.length then
        mixSample (bg.getD i 0) (fx.getD i 0)
      else bg.getD i 0 := by
  induction bg generalizing fx i with
  | nil =>
    cases fx <;> simp [mixChunk]
  | cons h t ih =>
    cases fx with
    | nil => simp [mixChunk]
    | cons fh ft =>
      cases i with
      | zero => simp [mixChunk]
      | succ n =>
        simp only [mixChunk, List.getD_cons_succ, List.length_cons, ih]
        by_cases hn : n < t.length ∧ n < ft.length
        · rw [if_pos hn, if_pos (by omega)]
        · rw [if_neg hn, if_neg (by omega)]

/-! ### Claims -/

/-- C1, counterexample: at piece `A` in its vertical orientation placed at
column 11 over the sidebar (all four lit cells in board column 13), the
spec's failure condition holds (the cells are out of the right bound) yet
`can_move` permits the placement, because its window check
`next_x + i <= 11` skips those cells. -/
theorem canMove_spec_mismatch :
    ¬ (canMove initBoard 0 1 11 0 = false ↔
        specCanPlaceFail initBoard 0 1 11 0 = true) := by
  decide

/-- C1 (amended): `can_move` returns false iff at least one lit cell of the
mask lands, inside the checked window — board row between 0 and 18 and
column offset `x + i ≤ 11` — on a non-space cell (an occupied playfield
cell or a border cell); lit cells with row < 0 (off the top), row > 18, or
column offset ≥ 12 never cause the check to fail. -/
theorem canMove_window_iff (b : Board) (piece ori : Nat) (x y : Int) :
    canMove b piece ori x y = false ↔
      ∃ i < 4, ∃ j < 4, pixelLit (getImg piece ori) i j = true ∧
        b (y + (j : Int)) (1 + x + (i : Int)) ≠ ' ' ∧
        y + (j : Int) ≤ 18 ∧ 0 ≤ y + (j : Int) ∧ x + (i : Int) ≤ 11 :=
  canMove_eq_false_iff b piece ori x y

/-- C2: a rejected move is reported as not applied; if the tentative row
differs from the committed one the piece is marked hit and the committed
column and orientation are untouched (the tentative ones keep their
values); if only the column or orientation changed, the hit flag keeps its
value and the tentative column and orientation are rolled back to the
committed ones. -/
theorem tryMove_reject_axes (b : Board) (cur : Current)
    (hrej : canMoveCur b cur = false) :
    (tryMove b cur).1 = false ∧
    (cur.next_y ≠ cur.y →
      (tryMove b cur).2.hit = true ∧
      (tryMove b cur).2.x = cur.x ∧
      (tryMove b cur).2.ori = cur.ori ∧
      (tryMove b cur).2.next_x = cur.next_x ∧
      (tryMove b cur).2.next_ori = cur.next_ori ∧
      (tryMove b cur).2.next_y = cur.y) ∧
    (cur.next_y = cur.y →
      (tryMove b cur).2.hit = cur.hit ∧
      (tryMove b cur).2.next_x = cur.x ∧
      (tryMove b cur).2.next_ori = cur.ori ∧
      (tryMove b cur).2.x = cur.x ∧
      (tryMove b cur).2.y = cur.y ∧
      (tryMove b cur).2.ori = cur.ori) := by
  simp only [tryMove, hrej, Bool.false_eq_true, if_false]
  refine ⟨by trivial, ?_, ?_⟩
  · intro hne
    simp [cancelMove, hne]
  · intro heq
    simp [cancelMove, heq]

/-- C2, witness: piece `B` pressed one more column into the left border;
the move is rejected horizontally. -/
theorem tryMove_reject_axes_witness :
    canMoveCur initBoard leftHitCur = false ∧
    ((tryMove initBoard leftHitCur).1 = false ∧
    (leftHitCur.next_y ≠ leftHitCur.y →
      (tryMove initBoard leftHitCur).2.hit = true ∧
      (tryMove initBoard leftHitCur).2.x = leftHitCur.x ∧
      (tryMove initBoard leftHitCur).2.ori = leftHitCur.ori ∧
      (tryMove initBoard leftHitCur).2.next_x = leftHitCur.next_x ∧
      (tryMove initBoard leftHitCur).2.next_ori = leftHitCur.next_ori ∧
      (tryMove initBoard leftHitCur).2.next_y = leftHitCur.y) ∧
    (leftHitCur.next_y = leftHitCur.y →
      (tryMove initBoard leftHitCur).2.hit = leftHitCur.hit ∧
      (tryMove initBoard leftHitCur).2.next_x = leftHitCur.x ∧
      (tryMove initBoard leftHitCur).2.next_ori = leftHitCur.ori ∧
      (tryMove initBoard leftHitCur).2.x = leftHitCur.x ∧
      (tryMove initBoard leftHitCur).2.y = leftHitCur.y ∧
      (tryMove initBoard leftHitCur).2.ori = leftHitCur.ori)) :=
  ⟨by decide, tryMove_reject_axes initBoard leftHitCur (by decide)⟩

/-- C3: clearing `N` recorded rows (`N ≤ 4`) adds exactly
`coef[N] * (lvl + 1)` to the score, where `lvl` is the game's level when
the score update runs — that is, after the per-row line/level updates of
this same clear. -/
theorem removeLines_score_formula (compLines : List Nat) (netMode : Bool)
    (b : Board) (s : Stats) (h : compLines.length ≤ 4) :
    (removeLines compLines netMode b s).2.1.score =
      s.score + coefList.getD compLines.length 0 *
        ((removeLines compLines netMode b s).2.1.lvl + 1) := by
  show (compLines.foldl clearStep (b, s)).2.score +
      coefList.getD compLines.length 0 *
        ((compLines.foldl clearStep (b, s)).2.lvl + 1) = _
  rw [foldl_clearStep_score]
  rfl

/-- C3, witness: one cleared row at level 0 with nine lines already done;
the clear lifts the level to 1 and the score rises by `40 * (1 + 1)`. -/
theorem removeLines_score_formula_witness :
    ([17] : List Nat).length ≤ 4 ∧
    (removeLines [17] false initBoard statsNine).2.1.score =
      statsNine.score + coefList.getD ([17] : List Nat).length 0 *
        ((removeLines [17] false initBoard statsNine).2.1.lvl + 1) :=
  ⟨by decide, removeLines_score_formula [17] false initBoard statsNine (by decide)⟩

/-- C4, counterexample: with a preset starting level 2 and nine cleared
lines, one more clear crosses the multiple-of-10 threshold (the counter
reaches 10) yet the level does not increase, because `lines / 10 = 1` does
not exceed the current level — "increases exactly when the count crosses a
multiple of 10" fails. -/
theorem completeLine_cross_no_increase :
    (completeLineStats statsPreset).lines % 10 = 0 ∧
    (completeLineStats statsPreset).lines = statsPreset.lines + 1 ∧
    (completeLineStats statsPreset).lvl = statsPreset.lvl := by
  decide

/-- C4 (amended): in non-target-lines mode the level never decreases, and
when it increases the new cumulative count is a multiple of 10 and the new
level is exactly `lines / 10`; after the update the period equals the entry
of the fixed strictly decreasing 20-entry table at index `lvl` — the index
is not clamped, so the lookup is in range only when the level is at most
19. -/
theorem completeLine_level_monotone (s : Stats) (h : s.mode ≠ 'b') :
    s.lvl ≤ (completeLineStats s).lvl ∧
    (s.lvl < (completeLineStats s).lvl →
      (completeLineStats s).lines % 10 = 0 ∧
      (completeLineStats s).lvl = (completeLineStats s).lines / 10) ∧
    ((completeLineStats s).lvl ≤ 19 →
      (completeLineStats s).period =
        periodTable.getD (completeLineStats s).lvl 0) ∧
    List.Pairwise (· > ·) periodTable := by
  rw [completeLineStats_nonb s h]
  dsimp only
  by_cases h10 : (s.lines + 1) % 10 = 0
  · rw [if_pos h10]
    refine ⟨Nat.le_max_right _ _, fun hlt => ⟨h10, by omega⟩,
      fun _ => rfl, by decide⟩
  · rw [if_neg h10]
    exact ⟨Nat.le_refl _, fun hlt => absurd hlt (lt_irrefl _),
      fun _ => rfl, by decide⟩

/-- C4, witness: the very first clear of a fresh mode-`a` game. -/
theorem completeLine_level_monotone_witness :
    statsStart.mode ≠ 'b' ∧
    (statsStart.lvl ≤ (completeLineStats statsStart).lvl ∧
    (statsStart.lvl < (completeLineStats statsStart).lvl →
      (completeLineStats statsStart).lines % 10 = 0 ∧
      (completeLineStats statsStart).lvl =
        (completeLineStats statsStart).lines / 10) ∧
    ((completeLineStats statsStart).lvl ≤ 19 →
      (completeLineStats statsStart).period =
        periodTable.getD (completeLineStats statsStart).lvl 0) ∧
    List.Pairwise (· > ·) periodTable) :=
  ⟨by decide, completeLine_level_monotone statsStart (by decide)⟩

/-- C5, counterexample: penalty rows are injected at the bottom, not by the
spec's shift-down description: on the empty initial board with void column
5, `add_lines(1)` makes the bottom playfield cell (row 17, column 1) a
solid block, while the claimed shift-down-and-fill-exposed-rows behavior
leaves it empty and fills top row 0 instead. -/
theorem addLines_direction_mismatch :
    addLines 1 5 initBoard 17 1 = '1' ∧
    specAddLines 1 5 initBoard 17 1 = ' ' ∧
    specAddLines 1 5 initBoard 0 1 = '1' ∧
    addLines 1 5 initBoard 0 1 = ' ' := by
  decide

/-- C5 (amended): when a clear resolves more than one row in two-player
mode, exactly one `MSG_LINES` message carrying `count - 1` is produced; the
receiver's `add_lines(p)` shifts the existing rows *up* by `p` (row `r`
takes row `r + p`'s content, the top `p` rows are discarded) and fills the
`p` newly exposed bottom rows with solid blocks in every playable column
except the void column, which stays empty. -/
theorem penalty_lines_protocol (compLines : List Nat) (b bb : Board)
    (s : Stats) (p : Nat) (vc r c : Int)
    (hn : 1 < compLines.length) (hp : p ≤ 18) (hc1 : 1 ≤ c) (hc2 : c ≤ 10) :
    (removeLines compLines true b s).2.2 =
      some (MSG_LINES, compLines.length - 1) ∧
    (0 ≤ r → r < 18 - (p : Int) →
      addLines p vc bb r c = bb (r + (p : Int)) c) ∧
    (18 - (p : Int) ≤ r → r < 18 →
      addLines p vc bb r c = if c ≠ vc then '1' else ' ') := by
  refine ⟨?_, ?_, ?_⟩
  · simp [removeLines, hn]
  · intro h0 hlt
    simp only [addLines]
    rw [if_pos ⟨hc1, hc2, h0, hlt⟩]
  · intro hge hlt
    simp only [addLines]
    rw [if_neg (by rintro ⟨-, -, -, hbad⟩; omega),
      if_pos ⟨hc1, hc2, hge, hlt⟩]

/-- C5, witness: a double clear sends `MSG_LINES 1`; injecting two penalty
rows turns bottom row 17 solid outside void column 5. -/
theorem penalty_lines_protocol_witness :
    1 < ([2, 3] : List Nat).length ∧ (2 : Nat) ≤ 18 ∧
    (1 : Int) ≤ 3 ∧ (3 : Int) ≤ 10 ∧
    ((removeLines [2, 3] true initBoard statsNine).2.2 =
      some (MSG_LINES, ([2, 3] : List Nat).length - 1) ∧
    ((0 : Int) ≤ 17 → (17 : Int) < 18 - ((2 : Nat) : Int) →
      addLines 2 5 initBoard 17 3 = initBoard (17 + ((2 : Nat) : Int)) 3) ∧
    (18 - ((2 : Nat) : Int) ≤ 17 → (17 : Int) < 18 →
      addLines 2 5 initBoard 17 3 = if (3 : Int) ≠ 5 then '1' else ' ')) :=
  ⟨by decide, by decide, by decide, by decide,
    penalty_lines_protocol [2, 3] initBoard initBoard statsNine 2 5 17 3
      (by decide) (by decide) (by decide) (by decide)⟩

/-- C6, counterexample: the round trip is not exact for every integer
value — packing `MSG_HEIGHT` with value 32 spills into the code bits, and
decoding returns code `0x20`, not `MSG_HEIGHT`. -/
theorem msg_roundtrip_cex :
    msgCode (msgBuild MSG_HEIGHT 32) ≠ MSG_HEIGHT := by
  decide

/-- C6 (amended): for each of the five message codes and every value in
`0..31` (the width of the value field), decoding the byte built by
`MSG_BUILD` recovers exactly the original code and exactly the original
value modulo 32. -/
theorem msg_roundtrip (code value : Nat)
    (hc : code = MSG_HEIGHT ∨ code = MSG_LINES ∨ code = MSG_LOST ∨
      code = MSG_QUIT ∨ code = MSG_PAUSE)
    (hv : value < 32) :
    msgCode (msgBuild code value) = code ∧
    msgValue (msgBuild code value) = value % 32 := by
  rcases hc with rfl | rfl | rfl | rfl | rfl <;>
    (interval_cases value <;> decide)

/-- C6, witness: `MSG_LINES` with value 5 round-trips. -/
theorem msg_roundtrip_witness :
    (MSG_LINES = MSG_HEIGHT ∨ MSG_LINES = MSG_LINES ∨ MSG_LINES = MSG_LOST ∨
      MSG_LINES = MSG_QUIT ∨ MSG_LINES = MSG_PAUSE) ∧ 5 < 32 ∧
    (msgCode (msgBuild MSG_LINES 5) = MSG_LINES ∧
     msgValue (msgBuild MSG_LINES 5) = 5 % 32) :=
  ⟨Or.inr (Or.inl rfl), by decide,
    msg_roundtrip MSG_LINES 5 (Or.inr (Or.inl rfl)) (by decide)⟩

/-- C7, counterexample: penalty-line injection is not re-validated against
the current piece.  With piece `B` freshly spawned and a block at row 3
column 5, the spawn does not overlap, but after `add_lines(1)` shifts the
stack up by one row the committed piece overlaps the block now at row 2. -/
theorem addLines_breaks_invariant :
    noOverlap overlapBoard spawnCur = true ∧
    noOverlap (addLines 1 5 overlapBoard) spawnCur = false := by
  decide

/-- C7 (amended): every move committed through `try_move` — horizontal,
rotational, or the one-step drop `down` — preserves the invariant that the
committed piece overlaps no occupied playfield cell; piece fixing followed
by spawn and penalty-line injection are not covered: the former can leave
an overlapping piece in the final LOST state and the latter performs no
re-validation. -/
theorem tryMove_preserves_invariant (b : Board) (cur : Current)
    (h : noOverlap b cur = true) :
    noOverlap b (tryMove b cur).2 = true ∧
    noOverlap b (down b cur).2 = true :=
  ⟨tryMove_noOverlap b cur h,
   tryMove_noOverlap b { cur with next_y := cur.next_y + 1 } h⟩

/-- C7, witness: piece `B` freshly spawned on the initial board. -/
theorem tryMove_preserves_invariant_witness :
    noOverlap initBoard spawnCur = true ∧
    (noOverlap initBoard (tryMove initBoard spawnCur).2 = true ∧
     noOverlap initBoard (down initBoard spawnCur).2 = true) :=
  ⟨by decide, tryMove_preserves_invariant initBoard spawnCur (by decide)⟩

/-- C8: a received byte whose code is none of the five known message codes
leaves the game state — end status, pause, main-loop flag, pending penalty
counter, gauge, board — untouched, keeps the connection open (the state is
returned unchanged), and reports the error (the boolean result is
false). -/
theorem readMsg_unknown_code_noop (st : NetGame) (m : Nat)
    (h0 : msgCode m ≠ MSG_HEIGHT) (h1 : msgCode m ≠ MSG_LINES)
    (h2 : msgCode m ≠ MSG_LOST) (h3 : msgCode m ≠ MSG_QUIT)
    (h4 : msgCode m ≠ MSG_PAUSE) :
    (readMsgByte st m).2 = false ∧ (readMsgByte st m).1 = st := by
  simp [readMsgByte, h0, h1, h2, h3, h4]

/-- C8, witness: byte `0xE5` carries the unknown code `0xE0`. -/
theorem readMsg_unknown_code_noop_witness :
    msgCode 0xE5 ≠ MSG_HEIGHT ∧ msgCode 0xE5 ≠ MSG_LINES ∧
    msgCode 0xE5 ≠ MSG_LOST ∧ msgCode 0xE5 ≠ MSG_QUIT ∧
    msgCode 0xE5 ≠ MSG_PAUSE ∧
    ((readMsgByte netGame0 0xE5).2 = false ∧
     (readMsgByte netGame0 0xE5).1 = netGame0) :=
  ⟨by decide, by decide, by decide, by decide, by decide,
    readMsg_unknown_code_noop netGame0 0xE5 (by decide) (by decide)
      (by decide) (by decide) (by decide)⟩

/-- C9, counterexample: the mix is not saturated — `bg = sfx = 255` gives
`(255 + 255 - 127) mod 256 = 127`, the 8-bit conversion having wrapped,
while saturation would give 255. -/
theorem mix_wraps_not_saturates :
    mixSample 255 255 = 127 ∧ satMixSample 255 255 = 255 ∧
    (sfxStep [255] 0 [255]).1 = [127] := by
  decide

/-- C9 (amended): while an effect is active, each output sample of the
mixed prefix equals `bg + sfx - 127` reduced modulo 256 (the conversion to
`unsigned char` wraps rather than saturates), samples beyond the effect
chunk pass through, the chunk length is preserved, and a read that returns
no bytes rewinds the effect stream to its start and marks it inactive. -/
theorem sfx_mix_exhaust (data bgm : List Nat) (pos : Nat) :
    (data.length ≤ pos → sfxStep data pos bgm = (bgm, 0, false)) ∧
    (sfxStep data pos bgm).1.length = bgm.length ∧
    (∀ i, i < bgm.length →
      (sfxStep data pos bgm).1.getD i 0 =
        if i < ((data.drop pos).take bgm.length).length then
          mixSample (bgm.getD i 0)
            (((data.drop pos).take bgm.length).getD i 0)
        else bgm.getD i 0) := by
  refine ⟨?_, ?_, ?_⟩
  · intro hle
    have hdrop : data.drop pos = [] := List.drop_eq_nil_of_le hle
    simp [sfxStep, hdrop]
  · unfold sfxStep
    by_cases he : ((data.drop pos).take bgm.length).isEmpty
    · simp [he]
    · simp [he, mixChunk_length]
  · intro i hi
    unfold sfxStep
    by_cases he : ((data.drop pos).take bgm.length).isEmpty
    · rw [List.isEmpty_iff] at he
      simp [he]
    · simp only [he, Bool.false_eq_true, if_false]
      rw [mixChunk_getD]
      by_cases hc : i < ((data.drop pos).take bgm.length).length
      · rw [if_pos ⟨hi, hc⟩, if_pos hc]
      · rw [if_neg (by tauto), if_neg hc]

/-- C10: for a positive pending count at most 18 and a completed-line index
at most 17, both `add_lines` and the row-collapse of `complete_line` write
only playfield cells (rows 0..17, columns 1..10); every border and sidebar
cell keeps its previous contents. -/
theorem board_writes_confined (b : Board) (p : Nat) (vc : Int) (line : Nat)
    (r c : Int) (hp0 : 0 < p) (hp : p ≤ 18) (hline : line ≤ 17)
    (hout : ¬ (0 ≤ r ∧ r ≤ 17 ∧ 1 ≤ c ∧ c ≤ 10)) :
    addLines p vc b r c = b r c ∧ completeLineBoard line b r c = b r c := by
  constructor
  · have hA : ¬ (1 ≤ c ∧ c ≤ 10 ∧ 0 ≤ r ∧ r < 18 - (p : Int)) := by
      rintro ⟨h1, h2, h3, h4⟩
      exact hout ⟨h3, by omega, h1, h2⟩
    have hB : ¬ (1 ≤ c ∧ c ≤ 10 ∧ 18 - (p : Int) ≤ r ∧ r < 18) := by
      rintro ⟨h1, h2, h3, h4⟩
      exact hout ⟨by omega, by omega, h1, h2⟩
    simp only [addLines]
    rw [if_neg hA, if_neg hB]
  · have hA : ¬ (1 ≤ r ∧ r ≤ (line : Int) ∧ 1 ≤ c ∧ c ≤ 10) := by
      rintro ⟨h1, h2, h3, h4⟩
      have hl : (line : Int) ≤ 17 := by exact_mod_cast hline
      exact hout ⟨by omega, by omega, h3, h4⟩
    simp only [completeLineBoard]
    rw [if_neg hA]

/-- C10, witness: the bottom-left border corner cell (row 18, column 0) is
untouched by a one-row penalty and by collapsing row 3. -/
theorem board_writes_confined_witness :
    (0 : Nat) < 1 ∧ (1 : Nat) ≤ 18 ∧ (3 : Nat) ≤ 17 ∧
    ¬ ((0 : Int) ≤ 18 ∧ (18 : Int) ≤ 17 ∧ (1 : Int) ≤ 0 ∧ (0 : Int) ≤ 10) ∧
    (addLines 1 5 initBoard 18 0 = initBoard 18 0 ∧
     completeLineBoard 3 initBoard 18 0 = initBoard 18 0) :=
  ⟨by decide, by decide, by decide, by decide,
    board_writes_confined initBoard 1 5 3 18 0 (by decide) (by decide)
      (by decide) (by decide)⟩

end Tetris
